import Mathlib

/-!
Verification of the `securesync` core of ka-lite (`kalite/securesync/models.py`)
against its natural-language specification.

The Python source is shallowly embedded: Django model instances become Lean
structures, the database becomes an explicit `Store` value threaded through the
operations, exceptions become `Except`, and the external capabilities (the
`crypto` module's sign/verify, base64, and the `uuid` module's uuid4/uuid5)
become fields of a `CryptoEnv` parameter, since they are external collaborators
of the code under verification.  "Ideal-crypto" facts (uuid5 collision-freedom,
unforgeability of signatures) are stated as explicit hypotheses where a theorem
needs them.

Conventions:
 * Python falsiness of a `CharField` is the empty string, of an `IntegerField`
   the value `0`, and of a nullable foreign key the value `none`.
 * A Django foreign key field stores the referenced row's primary key; we embed
   it as the primary-key string and resolve it against the `Store` on access.
 * `uuid.UUID(s)` / `.hex` round between a UUID value and its 32-hex-digit
   string form; we keep UUID values in their hex-string form throughout, so
   `env.uuid5` maps a namespace (hex form) and a name directly to a hex id.
-/

instance {ε α : Type} [DecidableEq ε] [DecidableEq α] : DecidableEq (Except ε α) := fun x y =>
  match x, y with
  | .ok a, .ok b =>
    if h : a = b then .isTrue (by rw [h]) else .isFalse (by intro he; cases he; exact h rfl)
  | .error e, .error f =>
    if h : e = f then .isTrue (by rw [h]) else .isFalse (by intro he; cases he; exact h rfl)
  | .ok _, .error _ => .isFalse (by intro he; cases he)
  | .error _, .ok _ => .isFalse (by intro he; cases he)

/-- External capabilities consumed by `models.py`: the `crypto` module
(process keypair sign/verify, key decoding), `base64`, and `uuid`. -/
structure CryptoEnv where
  /-- `uuid.uuid5(namespace, name).hex`: namespace in hex form, name string. -/
  uuid5 : String → String → String
  /-- `uuid.uuid4()`: one fresh random UUID (hex form).  `save` reads it at
  most once per call, so a single value per environment suffices. -/
  uuid4 : String
  /-- `crypto.sign(message)`: signs with the process's own private key. -/
  sign : String → String
  /-- `crypto.verify(message, sig, public_key)`. -/
  verify : String → String → String → Bool
  /-- `base64.encodestring(x).strip()`. -/
  b64encode : String → String
  /-- `base64.decodestring(x)`. -/
  b64decode : String → String
  /-- `crypto.RSA.new_pub_key` applied to the decoded parts of a
  `public_key` transport string. -/
  newPubKey : String → String
  /-- the transport-string form of the process's own public key, i.e.
  `":".join(base64.encodestring(x).strip() for x in crypto.public_key.pub())`. -/
  ownPubKeyString : String
deriving Inhabited

/-- One row of a concrete `SyncedModel` subtype.  The base-class fields are
explicit; the subtype's own fields (e.g. `name`, `public_key` for `Device`)
live in `extra` as (field name, rendered value) pairs in declaration order,
with `""` standing for an empty/falsy value.  `rtype` is the concrete class. -/
structure SRecord where
  id : String := ""
  counter : Nat := 0
  signature : String := ""
  signed_version : Nat := 1
  signed_by : Option String := none
  rtype : String := ""
  extra : List (String × String) := []
deriving DecidableEq, Repr, Inhabited

/-- A `DeviceMetadata` row (`device` is a nullable one-to-one key). -/
structure MetaRow where
  device : Option String := none
  is_trusted_authority : Bool := false
  is_own_device : Bool := false
  counter_position : Nat := 0
deriving DecidableEq, Repr, Inhabited

/-- The relational store: all `SyncedModel` rows (every concrete type,
distinguished by `rtype`) plus the `DeviceMetadata` table. -/
structure Store where
  records : List SRecord := []
  metas : List MetaRow := []
deriving DecidableEq, Repr, Inhabited

/-- `_unhashable_fields` from the source. -/
def unhashableFields : List String := ["signature", "signed_by"]

/-- `_always_hash_fields` from the source. -/
def alwaysHashFields : List String := ["signed_version", "id"]

/-- The concrete synced model classes, in `syncing_models` order. -/
def syncingModels : List String :=
  ["Device", "Organization", "Zone", "DeviceZones", "ZoneOrganizations",
   "Facility", "FacilityUser"]

/-- Code-point lexicographic order on character lists: the order Python's
`list.sort()` uses on ASCII field names (and the order of Lean's `String.lt`). -/
def lexLe : List Char → List Char → Bool
  | [], _ => true
  | _ :: _, [] => false
  | a :: as, b :: bs =>
    if a.toNat < b.toNat then true
    else if b.toNat < a.toNat then false
    else lexLe as bs

/-- String comparison for `list.sort()` on field names. -/
def strLe (a b : String) : Bool := lexLe a.data b.data

/-- Insert into a lexicographically sorted list (stable). -/
def sortInsert (a : String) : List String → List String
  | [] => [a]
  | b :: l => if strLe a b then a :: b :: l else b :: sortInsert a l

/-- `fields.sort()`: ascending code-point lexicographic sort. -/
def sortFields : List String → List String
  | [] => []
  | a :: l => sortInsert a (sortFields l)

/-- `"&".join(chunks)`. -/
def joinAmp : List String → String
  | [] => ""
  | [c] => c
  | c :: rest => c ++ "&" ++ joinAmp rest

/-- The field list actually hashed by `SyncedModel._hashable_representation`:
if no (non-empty) explicit list is supplied, all declared fields minus
`_unhashable_fields`, sorted; then each of `_always_hash_fields` is prepended
(in loop order, so a field prepended later ends up further to the front)
whenever it is missing. -/
def computeFields (declared : List String) (explicit : Option (List String)) : List String :=
  let fields :=
    match explicit with
    | none => sortFields (declared.filter (fun f => !(unhashableFields.contains f)))
    | some fs =>
      if fs.isEmpty then sortFields (declared.filter (fun f => !(unhashableFields.contains f)))
      else fs
  alwaysHashFields.foldl (fun fs f => if f ∈ fs then fs else f :: fs) fields

/-- The declared fields of a record's concrete class, in Django `_meta.fields`
order: inherited base fields first, then the subtype's own fields. -/
def declaredFields (r : SRecord) : List String :=
  ["id", "counter", "signature", "signed_version", "signed_by"] ++ r.extra.map Prod.fst

/-- `getattr(self, field)` followed by the `"%s"` rendering and the
foreign-key-to-pk substitution of `_hashable_representation`; `""` encodes a
falsy value (empty string, `0`, `None`). -/
def fieldValue (r : SRecord) (f : String) : String :=
  if f = "id" then r.id
  else if f = "counter" then (if r.counter = 0 then "" else Nat.repr r.counter)
  else if f = "signature" then r.signature
  else if f = "signed_version" then (if r.signed_version = 0 then "" else Nat.repr r.signed_version)
  else if f = "signed_by" then (match r.signed_by with | none => "" | some pk => pk)
  else (match r.extra.lookup f with | none => "" | some v => v)

/-- The chunk loop of `SyncedModel._hashable_representation`: keep the fields
with truthy values, render each as `name=value`, join with `&`. -/
def hashableChunks (fields : List String) (v : String → String) : String :=
  joinAmp ((fields.filter (fun f => v f != "")).map (fun f => f ++ "=" ++ v f))

/-- The explicit field list a concrete class passes to the base
`_hashable_representation`: only `Device` overrides it. -/
def explicitFieldsFor (rtype : String) : Option (List String) :=
  if rtype = "Device" then some ["signed_version", "name", "description", "public_key"]
  else none

/-- `SyncedModel._hashable_representation` (with `Device`'s override). -/
def hashableRepresentation (r : SRecord) : String :=
  hashableChunks (computeFields (declaredFields r) (explicitFieldsFor r.rtype)) (fieldValue r)

/-- Look up a `Device` row by primary key (a Django foreign-key dereference). -/
def findDevice (st : Store) (pk : String) : Option SRecord :=
  st.records.find? (fun x => x.rtype = "Device" && x.id = pk)

/-- `Device` stores its key in the subtype field `public_key`. -/
def devicePublicKey (d : SRecord) : String :=
  match d.extra.lookup "public_key" with | none => "" | some v => v

/-- `Device.get_metadata`: the existing `DeviceMetadata` row for this device,
or a fresh unsaved one (all-default flags) bound to it. -/
def lookupMeta (st : Store) (deviceId : String) : MetaRow :=
  match st.metas.find? (fun m => m.device = some deviceId) with
  | some m => m
  | none => { device := some deviceId }

/-- `metadata.save()`: replace the row for this device, or insert it. -/
def saveMeta (st : Store) (m : MetaRow) : Store :=
  if st.metas.any (fun x => x.device = m.device) then
    { st with metas := st.metas.map (fun x => if x.device = m.device then m else x) }
  else
    { st with metas := st.metas ++ [m] }

/-- `super(SyncedModel, self).save()`: the raw Django write — update the row
with this primary key in this concrete type's table, or insert it. -/
def dbSave (st : Store) (r : SRecord) : Store :=
  if st.records.any (fun x => x.rtype = r.rtype && x.id = r.id) then
    { st with records := st.records.map (fun x => if x.rtype = r.rtype && x.id = r.id then r else x) }
  else
    { st with records := st.records ++ [r] }

/-- `Device.get_own_device`: the device of the first `DeviceMetadata` row
flagged `is_own_device`, or `none` when no such row (or no such device) exists. -/
def get_own_device (st : Store) : Option SRecord :=
  match st.metas.filter (fun m => m.is_own_device) with
  | [] => none
  | m :: _ => m.device.bind (findDevice st)

/-- `SyncedModel.verify`: fails closed when `signed_by` is absent, otherwise
recomputes the canonical representation and checks the stored signature
against the signer's public key.  (A dangling `signed_by` key, which Django
would report as `DoesNotExist`, is likewise embedded as `false`.) -/
def verifyModel (env : CryptoEnv) (st : Store) (r : SRecord) : Bool :=
  match r.signed_by with
  | none => false
  | some pk =>
    match findDevice st pk with
    | none => false
    | some dev =>
      env.verify (hashableRepresentation r) (env.b64decode r.signature)
        (env.newPubKey (devicePublicKey dev))

/-- `SyncedModel.sign(device)`: set `signed_by` to the given device, then
sign the canonical representation with the process key. -/
def signRecord (env : CryptoEnv) (dev : SRecord) (r : SRecord) : SRecord :=
  let r1 := { r with signed_by := some dev.id }
  { r1 with signature := env.b64encode (env.sign (hashableRepresentation r1)) }

/-- The `requires_authority_signature` class attribute.  Every concrete synced
class except `FacilityUser` sets it to `True`; `FacilityUser` (and the
abstract base) never defines it, so reading it raises `AttributeError` —
embedded as `none`. -/
def requiresAuthoritySignature (rtype : String) : Option Bool :=
  if rtype = "Device" || rtype = "Organization" || rtype = "Zone" ||
     rtype = "ZoneOrganizations" || rtype = "Facility" || rtype = "DeviceZones" then
    some true
  else none

/-- Errors raised out of `SyncedModel.clean`.  The first two are Django
`ValidationError`s; `attributeError` embeds the Python `AttributeError`
raised by reading the undefined `requires_authority_signature` attribute
(it is *not* a `ValidationError`). -/
inductive CleanError
  | signatureInvalid
  | trustViolation
  | attributeError
deriving DecidableEq, Repr, Inhabited

/-- The metadata consulted by `clean`'s trust check:
`self.signed_by.get_metadata()`. -/
def signedByMetadata (st : Store) (r : SRecord) : MetaRow :=
  match r.signed_by with
  | none => {}
  | some pk => lookupMeta st pk

/-- `SyncedModel.clean`: with a signature present, the signature must verify,
and a type that requires an authority signature must be signed by a device
whose metadata is flagged trusted.  With no signature, no check runs. -/
def clean (env : CryptoEnv) (st : Store) (r : SRecord) : Except CleanError Unit :=
  if r.signature = "" then .ok ()
  else if verifyModel env st r = false then .error .signatureInvalid
  else
    match requiresAuthoritySignature r.rtype with
    | none => .error .attributeError
    | some false => .ok ()
    | some true =>
      if (signedByMetadata st r).is_trusted_authority then .ok ()
      else .error .trustViolation

/-- `Device.increment_and_get_counter`: returns `0` without writing when the
device has no persisted id yet; otherwise atomically bumps and stores the
device's `counter_position`. -/
def incrementAndGetCounter (st : Store) (od : SRecord) : Nat × Store :=
  if od.id = "" then (0, st)
  else
    let m := lookupMeta st od.id
    let m' := { m with counter_position := m.counter_position + 1 }
    (m'.counter_position, saveMeta st m')

/-- How `save`'s `own_device` argument was supplied.  `ownSelf` records the
Python aliasing in `Device.save`, which passes the record *itself* as the
acting own device (attribute reads through that alias see the record's
current state). -/
inductive OwnArg
  | noArg
  | ownDev (d : SRecord)
  | ownSelf
deriving DecidableEq, Repr, Inhabited

/-- `own_device = own_device or Device.get_own_device()`. -/
def resolveOwn (oa : OwnArg) (st : Store) (r : SRecord) : Option SRecord :=
  match oa with
  | .noArg => get_own_device st
  | .ownDev d => some d
  | .ownSelf => some r

/-- Errors raised out of `SyncedModel.save`. -/
inductive SaveError
  | configurationError
deriving DecidableEq, Repr, Inhabited

/-- `namespace = own_device.id and uuid.UUID(own_device.id) or uuid.uuid4()`
(evaluated before any field of the record is modified). -/
def saveNamespace (env : CryptoEnv) (od : SRecord) : String :=
  if od.id = "" then env.uuid4 else od.id

/-- `if not self.counter: self.counter = own_device.increment_and_get_counter()`. -/
def saveCounterStage (st : Store) (od : SRecord) (r : SRecord) : SRecord × Store :=
  if r.counter = 0 then
    let cs := incrementAndGetCounter st od
    ({ r with counter := cs.1 }, cs.2)
  else (r, st)

/-- `if not self.id: self.id = uuid.uuid5(namespace, str(self.counter)).hex`
followed by the first `super().save()` inside that branch. -/
def saveIdStage (env : CryptoEnv) (nsHex : String) (r : SRecord) (st : Store) :
    SRecord × Store :=
  if r.id = "" then
    let rx := { r with id := env.uuid5 nsHex (Nat.repr r.counter) }
    (rx, dbSave st rx)
  else (r, st)

/-- `if not self.signature: self.sign(device=own_device)`.  `dev` is the
own-device alias at that point in execution. -/
def saveSignStage (env : CryptoEnv) (dev : SRecord) (r : SRecord) : SRecord :=
  if r.signature = "" then signRecord env dev r else r

/-- The own-device alias as seen at signing time: in the `ownSelf` case the
Python variable `own_device` is the record object itself, so attribute reads
see the record's current (id-bearing) state. -/
def ownForSign (oa : OwnArg) (od r : SRecord) : SRecord :=
  match oa with
  | .ownSelf => r
  | _ => od

/-- `SyncedModel.save`: resolve the acting own device (raising a
`ValidationError` — the spec's `ConfigurationError` — when there is none);
allocate a counter when the current one is falsy; derive the id via
`uuid5(namespace, str(counter))` when the id is unset (persisting once right
away); sign when unsigned; persist. -/
def save (env : CryptoEnv) (oa : OwnArg) (st : Store) (r : SRecord) :
    Except SaveError (SRecord × Store) :=
  match resolveOwn oa st r with
  | none => .error .configurationError
  | some od =>
    let cs := saveCounterStage st od r
    let is := saveIdStage env (saveNamespace env od) cs.1 cs.2
    let r3 := saveSignStage env (ownForSign oa od is.1) is.1
    .ok (r3, dbSave is.2 r3)

/-- `Device.set_public_key(crypto.public_key)` on the embedded record. -/
def setOwnPublicKey (env : CryptoEnv) (d : SRecord) : SRecord :=
  { d with extra := d.extra.map (fun p => if p.1 = "public_key" then (p.1, env.ownPubKeyString) else p) }

/-- Set one boolean metadata flag of a device's row (creating the row if
needed), as the `get_metadata` / mutate / `metadata.save()` snippets do. -/
def setMetaTrusted (st : Store) (deviceId : String) : Store :=
  saveMeta st { lookupMeta st deviceId with is_trusted_authority := true }

def setMetaOwn (st : Store) (deviceId : String) : Store :=
  saveMeta st { lookupMeta st deviceId with is_own_device := true }

/-- `Device.save(self_signed, is_own_device)`: first phase persists through
the base `save` with the record itself as own device iff `is_own_device`;
the self-signed own-device case then re-derives the public key, self-signs,
and persists again; finally the metadata flags are set. -/
def deviceSave (env : CryptoEnv) (self_signed is_own_device : Bool) (st : Store)
    (d : SRecord) : Except SaveError (SRecord × Store) := do
  let (d1, st1) ← save env (if is_own_device then .ownSelf else .noArg) st d
  let (d2, st2) ←
    if self_signed && is_own_device then do
      let da := setOwnPublicKey env d1
      let db := signRecord env da da
      save env .ownSelf st1 db
    else
      pure (d1, st1)
  let st3 := if self_signed then setMetaTrusted st2 d2.id else st2
  let st4 := if is_own_device then setMetaOwn st3 d2.id else st3
  .ok (d2, st4)

/-- A `SyncSession` row.  Foreign keys are embedded as device primary keys
(`client_device` is non-nullable, `server_device` nullable). -/
structure SessionR where
  client_nonce : String := ""
  client_device : String := ""
  server_nonce : String := ""
  server_device : Option String := none
  verified : Bool := false
deriving DecidableEq, Repr, Inhabited

/-- `SyncSession._hashable_representation`:
`"%s:%s:%s:%s" % (client_nonce, client_device.pk, server_nonce, server_device.pk)`.
Reading `.pk` of an absent `server_device` would raise in Python, so the
result is defined only when the server side has responded (`none` otherwise). -/
def sessionHashableRepresentation (s : SessionR) : Option String :=
  s.server_device.map (fun sd =>
    s.client_nonce ++ ":" ++ s.client_device ++ ":" ++ s.server_nonce ++ ":" ++ sd)

/-- `SyncSession._verify_signature(device, signature)` for a device given by
primary key: verify the (base64-decoded) signature over the canonical string
against that device's public key.  The undefined Python cases (no server
response yet, dangling device key) are embedded as `false`. -/
def sessionVerifySignature (env : CryptoEnv) (st : Store) (s : SessionR)
    (devicePk : String) (signature : String) : Bool :=
  match sessionHashableRepresentation s, findDevice st devicePk with
  | some rep, some dev =>
    env.verify rep (env.b64decode signature) (env.newPubKey (devicePublicKey dev))
  | _, _ => false

/-- `SyncSession.verify_client_signature`. -/
def verify_client_signature (env : CryptoEnv) (st : Store) (s : SessionR)
    (signature : String) : Bool :=
  sessionVerifySignature env st s s.client_device signature

/-- `SyncSession.verify_server_signature`. -/
def verify_server_signature (env : CryptoEnv) (st : Store) (s : SessionR)
    (signature : String) : Bool :=
  match s.server_device with
  | none => false
  | some sd => sessionVerifySignature env st s sd signature

/-- Terminal handshake states. -/
inductive HandshakeState
  | Verified
  | Rejected
deriving DecidableEq, Repr, Inhabited

/-- Modelled from the spec: the handshake state transition itself (granting
`Verified` versus `Rejected`) is not part of `models.py` — the repository
under `src/` only defines the two signature checks, and the transition lives
in the transport-layer views.  Per the spec, the session becomes `Verified`
exactly when both `verify_client_signature` and `verify_server_signature`
succeed, and is `Rejected` (with no partial trust) when either fails. -/
def handshakeOutcome (env : CryptoEnv) (st : Store) (s : SessionR)
    (clientSig serverSig : String) : HandshakeState :=
  if verify_client_signature env st s clientSig &&
     verify_server_signature env st s serverSig then
    .Verified
  else
    .Rejected

/-- The records of one syncing model's table, in store order
(`Model.objects.filter(signed_by=device_id, counter__gte=counter)`). -/
def tableOf (st : Store) (rtype : String) : List SRecord :=
  st.records.filter (fun r => r.rtype = rtype)

def filterOutstanding (tbl : List SRecord) (deviceId : String) (watermark : Nat) :
    List SRecord :=
  tbl.filter (fun r => r.signed_by = some deviceId && watermark ≤ r.counter)

/-- The inner device loop of `get_serialized_models`: accumulate each device's
outstanding records; as soon as the accumulator exceeds `limit`, return the
first `limit` records early (`.inl`), otherwise hand the accumulator back to
the outer loop (`.inr`). -/
def gsmDeviceLoop (tbl : List SRecord) (limit : Nat) :
    List (String × Nat) → List SRecord → List SRecord ⊕ List SRecord
  | [], acc => .inr acc
  | (did, ctr) :: rest, acc =>
    let acc' := acc ++ filterOutstanding tbl did ctr
    if limit < acc'.length then .inl (acc'.take limit)
    else gsmDeviceLoop tbl limit rest acc'

/-- The outer model loop of `get_serialized_models`. -/
def gsmModelLoop (st : Store) (limit : Nat) (dcs : List (String × Nat)) :
    List String → List SRecord → List SRecord
  | [], acc => acc
  | rtype :: rest, acc =>
    match gsmDeviceLoop (tableOf st rtype) limit dcs acc with
    | .inl res => res
    | .inr acc' => gsmModelLoop st limit dcs rest acc'

/-- The default watermark map:
`dict((device.id, 0) for device in Device.objects.all())`. -/
def zeroWatermarks (st : Store) : List (String × Nat) :=
  (tableOf st "Device").map (fun d => (d.id, 0))

/-- `if not device_counters: device_counters = ...`: a falsy map (absent or
empty) is replaced by the zero watermark for every known device. -/
def effectiveCounters (st : Store) (dc : Option (List (String × Nat))) :
    List (String × Nat) :=
  match dc with
  | none => zeroWatermarks st
  | some l => if l.isEmpty then zeroWatermarks st else l

/-- `get_serialized_models(device_counters, limit)`.  The JSON serialization
of the resulting record list is not modelled: the function returns the list
of records the source would serialize, in order. -/
def get_serialized_models (st : Store) (device_counters : Option (List (String × Nat)))
    (limit : Nat) : List SRecord :=
  gsmModelLoop st limit (effectiveCounters st device_counters) syncingModels []

/-- The loop of `save_serialized_models`: each deserialized record is
validated (`full_clean`, embedded as `clean`) and saved; a `ValidationError`
is caught and the record collected as unsaved; any other exception — in
particular the `AttributeError` from `clean` on a signed `FacilityUser` —
propagates and aborts the loop. -/
def ssmLoop (env : CryptoEnv) : List SRecord → Store → List SRecord →
    Except CleanError (Store × List SRecord)
  | [], db, unsaved => .ok (db, unsaved)
  | m :: rest, db, unsaved =>
    match clean env db m with
    | .ok _ => ssmLoop env rest (dbSave db m) unsaved
    | .error .attributeError => .error .attributeError
    | .error _ => ssmLoop env rest db (unsaved ++ [m])

/-- `save_serialized_models(data)`: deserialization is not modelled (the
input is already the list of records), the rest is `ssmLoop`. -/
def save_serialized_models (env : CryptoEnv) (st : Store) (batch : List SRecord) :
    Except CleanError (Store × List SRecord) :=
  ssmLoop env batch st []

/-- The id derivation of `SyncedModel.save`:
`uuid5(UUID(deviceId), str(counter)).hex`, for a device with a persisted id. -/
def deriveId (env : CryptoEnv) (deviceId : String) (counter : Nat) : String :=
  env.uuid5 deviceId (Nat.repr counter)

/-- Spec-side description of the export selection (§4.6): for every syncable
record type, for every device in the map, the records signed by that device
with counter at or above the watermark, accumulated in type-then-device
order.  Stated separately from `get_serialized_models` so the two can be
compared. -/
def specSelection (st : Store) (dcs : List (String × Nat)) : List SRecord :=
  syncingModels.flatMap (fun t =>
    dcs.flatMap (fun p => filterOutstanding (tableOf st t) p.1 p.2))

/-! ### Concrete instances used by witnesses and counterexamples -/

/-- Tag every character of the first component so that an untagged separator
can be recognised unambiguously. -/
def tagChars : List Char → List Char
  | [] => []
  | c :: cs => '1' :: c :: tagChars cs

/-- An injective two-argument pairing on strings: a concrete stand-in for a
collision-free `uuid5`. -/
def pairStr (a b : String) : String := ⟨tagChars a.data ++ '0' :: b.data⟩

/-- A concrete environment realising the ideal-crypto hypotheses: `uuid5` is
an injective pairing, signing is the identity and verification is equality of
message and signature. -/
def idealEnv : CryptoEnv where
  uuid5 := pairStr
  uuid4 := "ffffffffffffffffffffffffffffffff"
  sign := fun m => m
  verify := fun m s _ => m == s
  b64encode := fun s => s
  b64decode := fun s => s
  newPubKey := fun s => s
  ownPubKeyString := "PK"

/-- A concrete environment whose verification always succeeds (for exercising
the post-verification branches of `clean`). -/
def validEnv : CryptoEnv :=
  { idealEnv with verify := fun _ _ _ => true }

/-- A persisted `Device` row with id `"aa"`. -/
def cDeviceA : SRecord :=
  { rtype := "Device", id := "aa", counter := 1, signed_version := 1,
    extra := [("name", "n"), ("description", "d"), ("public_key", "PK"), ("revoked", "")] }

/-- A persisted `Device` row with id `"dd"`. -/
def cDeviceD : SRecord :=
  { rtype := "Device", id := "dd", counter := 1, signed_version := 1,
    extra := [("name", "m"), ("description", ""), ("public_key", "PK2"), ("revoked", "")] }

/-- A brand-new `Device` record (no id, no counter, no signature): the
bootstrap record of `Device.save(self_signed=True, is_own_device=True)`. -/
def cFreshDevice : SRecord :=
  { rtype := "Device", signed_version := 1,
    extra := [("name", "n"), ("description", ""), ("public_key", ""), ("revoked", "")] }

/-- First (phase-1) save of the bootstrap device on an empty store. -/
def c2Phase1 : SRecord × Store :=
  ((save idealEnv .ownSelf {} cFreshDevice).toOption).getD default

/-- A subsequent save of the very record produced by the first save (the
phase-2 save of `Device.save`). -/
def c2Phase2 : SRecord × Store :=
  ((save idealEnv .ownSelf c2Phase1.2 c2Phase1.1).toOption).getD default

/-- An unsaved `Organization` record with a pre-set counter. -/
def c1RecordA : SRecord :=
  { rtype := "Organization", counter := 5, extra := [("name", "o"), ("description", "")] }

/-- An unsaved `Zone` record with the same pre-set counter. -/
def c1RecordB : SRecord :=
  { rtype := "Zone", counter := 5,
    extra := [("name", "z"), ("description", ""), ("organization", "o1")] }

def c1ResultA : SRecord × Store :=
  ((save idealEnv (.ownDev cDeviceD) {} c1RecordA).toOption).getD default

def c1ResultB : SRecord × Store :=
  ((save idealEnv (.ownDev cDeviceD) {} c1RecordB).toOption).getD default

/-- An already-persisted record (id, counter and signature all set). -/
def cW2Record : SRecord :=
  { rtype := "Organization", id := "bb", counter := 3, signature := "s",
    signed_by := some "dd", extra := [("name", "o"), ("description", "")] }

def cW2Result : SRecord × Store :=
  ((save idealEnv (.ownDev cDeviceD) {} cW2Record).toOption).getD default

/-- A `Device` record about to be signed (signature still empty). -/
def cR4base : SRecord :=
  { rtype := "Device", id := "aa", counter := 5, signed_version := 1, signed_by := some "aa",
    extra := [("name", "n"), ("description", "d"), ("public_key", "PK"), ("revoked", "")] }

/-- The same record carrying the signature `sign` would produce for it. -/
def cR4 : SRecord :=
  { cR4base with signature := idealEnv.b64encode (idealEnv.sign (hashableRepresentation cR4base)) }

/-- `cR4` with its `name` field tampered after signing. -/
def cR4tampered : SRecord :=
  { cR4 with extra := [("name", "evil"), ("description", "d"), ("public_key", "PK"), ("revoked", "")] }

def cSt4 : Store := { records := [cR4] }

/-- A signed `Organization` record (authority-requiring type). -/
def cR5 : SRecord :=
  { rtype := "Organization", id := "bb", counter := 1, signature := "sig",
    signed_by := some "aa", extra := [("name", "o"), ("description", "")] }

/-- Store in which the signer `"aa"` is *not* a trusted authority. -/
def cSt5 : Store :=
  { records := [cDeviceA], metas := [{ device := some "aa", is_trusted_authority := false }] }

/-- Store in which the signer `"aa"` *is* a trusted authority. -/
def cSt5t : Store :=
  { records := [cDeviceA], metas := [{ device := some "aa", is_trusted_authority := true }] }

/-- A `FacilityUser` record carrying a signature. -/
def cFU : SRecord :=
  { rtype := "FacilityUser", id := "bb", counter := 2, signature := "s",
    signed_by := some "aa",
    extra := [("facility", "f1"), ("username", "u"), ("first_name", ""),
              ("last_name", ""), ("notes", ""), ("password", "p")] }

def cSt6 : Store := { records := [cDeviceA] }

/-- An unsigned record of an authority-requiring type. -/
def cR10 : SRecord :=
  { rtype := "Organization", id := "cc", counter := 1, signed_by := some "aa",
    extra := [("name", "o"), ("description", "")] }

/-- A handshake session after the server has responded. -/
def cSession : SessionR :=
  { client_nonce := "cn", client_device := "aa", server_nonce := "sn",
    server_device := some "dd" }

def cSt9 : Store := { records := [cDeviceA, cDeviceD] }

/-! ### Decimal rendering is injective (`str(counter)` in the id derivation) -/

/-- Decimal decoder used to invert `Nat.repr`. -/
def strToNatAux : Nat → List Char → Nat
  | acc, [] => acc
  | acc, c :: cs => strToNatAux (10 * acc + (c.toNat - 48)) cs

theorem digitChar_toNat_sub (d : Nat) (hd : d < 10) : (Nat.digitChar d).toNat - 48 = d := by
  interval_cases d <;> rfl

theorem toDigitsCore_succ_unfold (f n : Nat) (ds : List Char) :
    Nat.toDigitsCore 10 (f + 1) n ds =
      if n / 10 = 0 then Nat.digitChar (n % 10) :: ds
      else Nat.toDigitsCore 10 f (n / 10) (Nat.digitChar (n % 10) :: ds) := rfl

theorem strToNatAux_cons (acc : Nat) (c : Char) (cs : List Char) :
    strToNatAux acc (c :: cs) = strToNatAux (10 * acc + (c.toNat - 48)) cs := rfl

theorem strToNatAux_toDigitsCore :
    ∀ f n acc ds, n < f →
      ∃ p, strToNatAux acc (Nat.toDigitsCore 10 f n ds) = strToNatAux (acc * p + n) ds := by
  intro f
  induction f with
  | zero => intro n acc ds h; omega
  | succ f ih =>
    intro n acc ds h
    by_cases h10 : n / 10 = 0
    · refine ⟨10, ?_⟩
      have hn : n < 10 := by
        by_contra hc
        have : 1 ≤ n / 10 := Nat.one_le_div_iff (by norm_num) |>.mpr (by omega)
        omega
      have hmod : n % 10 = n := Nat.mod_eq_of_lt hn
      rw [toDigitsCore_succ_unfold, if_pos h10, strToNatAux_cons,
        digitChar_toNat_sub (n % 10) (Nat.mod_lt n (by norm_num)), hmod]
      have : 10 * acc + n = acc * 10 + n := by ring
      rw [this]
    · have hnb : 10 ≤ n := by
        by_contra hc
        exact h10 (Nat.div_eq_of_lt (by omega))
      have hlt : n / 10 < f := by
        have : n / 10 < n := Nat.div_lt_self (by omega) (by norm_num)
        omega
      obtain ⟨p, hp⟩ := ih (n / 10) acc (Nat.digitChar (n % 10) :: ds) hlt
      refine ⟨10 * p, ?_⟩
      rw [toDigitsCore_succ_unfold, if_neg h10, hp, strToNatAux_cons,
        digitChar_toNat_sub (n % 10) (Nat.mod_lt n (by norm_num))]
      have : 10 * (acc * p + n / 10) + n % 10 = acc * (10 * p) + (10 * (n / 10) + n % 10) := by
        ring
      rw [this, Nat.div_add_mod]

theorem strToNatAux_repr (n : Nat) : strToNatAux 0 (Nat.repr n).data = n := by
  obtain ⟨p, hp⟩ := strToNatAux_toDigitsCore (n + 1) n 0 [] (Nat.lt_succ_self n)
  have h1 : (Nat.repr n).data = Nat.toDigitsCore 10 (n + 1) n [] := rfl
  rw [h1, hp]
  show 0 * p + n = n
  omega

theorem natRepr_injective {m n : Nat} (h : Nat.repr m = Nat.repr n) : m = n := by
  have := congrArg (fun s : String => strToNatAux 0 s.data) h
  simpa [strToNatAux_repr] using this

/-! ### A concrete injective pairing on strings (witness for ideal `uuid5`) -/

theorem tagChars_pair_inj :
    ∀ xs ys xs' ys', tagChars xs ++ '0' :: ys = tagChars xs' ++ '0' :: ys' →
      xs = xs' ∧ ys = ys' := by
  intro xs
  induction xs with
  | nil =>
    intro ys xs' ys' h
    cases xs' with
    | nil => simpa [tagChars] using h
    | cons c cs => simp [tagChars] at h
  | cons c cs ih =>
    intro ys xs' ys' h
    cases xs' with
    | nil => simp [tagChars] at h
    | cons c' cs' =>
      simp only [tagChars, List.cons_append, List.cons.injEq] at h
      obtain ⟨-, hc, hrest⟩ := h
      obtain ⟨h1, h2⟩ := ih ys cs' ys' hrest
      exact ⟨by rw [hc, h1], h2⟩

theorem pairStr_inj (a b a' b' : String) (h : pairStr a b = pairStr a' b') :
    a = a' ∧ b = b' := by
  have hd : tagChars a.data ++ '0' :: b.data = tagChars a'.data ++ '0' :: b'.data := by
    have := congrArg String.data h
    simpa [pairStr] using this
  obtain ⟨h1, h2⟩ := tagChars_pair_inj _ _ _ _ hd
  exact ⟨String.ext h1, String.ext h2⟩

/-! ### `"&".join` cancellation lemmas (tamper-detection core) -/

theorem strAppend_right_cancel {a b c : String} (h : a ++ c = b ++ c) : a = b := by
  apply String.ext
  have := congrArg String.data h
  simp only [String.data_append] at this
  exact List.append_cancel_right this

theorem strAppend_left_cancel {a b c : String} (h : a ++ b = a ++ c) : b = c := by
  apply String.ext
  have := congrArg String.data h
  simp only [String.data_append] at this
  exact List.append_cancel_left this

theorem joinAmp_cons (c : String) (l : List String) (hl : l ≠ []) :
    joinAmp (c :: l) = c ++ "&" ++ joinAmp l := by
  cases l with
  | nil => exact absurd rfl hl
  | cons b bs => rfl

theorem joinAmp_mid_inj (A B : List String) (c c' : String)
    (h : joinAmp (A ++ c :: B) = joinAmp (A ++ c' :: B)) : c = c' := by
  induction A with
  | nil =>
    cases B with
    | nil => simpa [joinAmp] using h
    | cons b bs =>
      simp only [List.nil_append] at h
      rw [joinAmp_cons c (b :: bs) (by simp), joinAmp_cons c' (b :: bs) (by simp)] at h
      exact strAppend_right_cancel (strAppend_right_cancel h)
  | cons a as ih =>
    simp only [List.cons_append] at h
    rw [joinAmp_cons a (as ++ c :: B) (by simp), joinAmp_cons a (as ++ c' :: B) (by simp)] at h
    exact ih (strAppend_left_cancel h)

theorem length_amp : ("&" : String).length = 1 := rfl

theorem joinAmp_length_mid (A B : List String) (c : String) :
    (joinAmp (A ++ c :: B)).length =
      (joinAmp (A ++ B)).length + c.length + (if A ++ B = [] then 0 else 1) := by
  induction A with
  | nil =>
    cases B with
    | nil => simp [joinAmp]
    | cons b bs =>
      simp only [List.nil_append]
      rw [joinAmp_cons c (b :: bs) (by simp), if_neg (by simp)]
      simp only [String.length_append, length_amp]
      omega
  | cons a as ih =>
    simp only [List.cons_append]
    rw [joinAmp_cons a (as ++ c :: B) (by simp)]
    by_cases hab : as ++ B = []
    · obtain ⟨ha, hb⟩ := List.append_eq_nil.mp hab
      subst ha; subst hb
      simp [joinAmp, String.length_append, length_amp]
      omega
    · rw [joinAmp_cons a (as ++ B) hab, if_neg (by simp)]
      simp only [String.length_append, length_amp]
      rw [ih, if_neg hab]
      omega

theorem string_ne_of_length_ne {a b : String} (h : a.length ≠ b.length) : a ≠ b := by
  intro he; exact h (by rw [he])

theorem joinAmp_mid_ne (A B : List String) (c : String) (hc : 0 < c.length) :
    joinAmp (A ++ c :: B) ≠ joinAmp (A ++ B) := by
  apply string_ne_of_length_ne
  rw [joinAmp_length_mid]
  split <;> omega

theorem length_eqsign : ("=" : String).length = 1 := rfl

theorem chunk_length_pos (f x : String) : 0 < (f ++ "=" ++ x).length := by
  simp only [String.length_append, length_eqsign]
  omega

theorem chunks_congr (A : List String) (v v' : String → String)
    (h : ∀ g ∈ A, v' g = v g) :
    (A.filter (fun g => v' g != "")).map (fun g => g ++ "=" ++ v' g) =
      (A.filter (fun g => v g != "")).map (fun g => g ++ "=" ++ v g) := by
  induction A with
  | nil => rfl
  | cons a as ih =>
    have ha : v' a = v a := h a (List.mem_cons_self a as)
    have ht := ih (fun g hg => h g (List.mem_cons_of_mem a hg))
    cases hb : (v a != "") with
    | true => simp [List.filter_cons, ha, hb, ht]
    | false => simp [List.filter_cons, ha, hb, ht]

/-- Tampering core: changing the value of one field of the hashed field list
changes the canonical representation string. -/
theorem hashableChunks_tamper (fields : List String) (hnd : fields.Nodup)
    (f : String) (hf : f ∈ fields) (v v' : String → String)
    (hne : v' f ≠ v f) (hsame : ∀ g, g ≠ f → v' g = v g) :
    hashableChunks fields v' ≠ hashableChunks fields v := by
  obtain ⟨A, B, rfl⟩ := List.append_of_mem hf
  rw [List.nodup_append] at hnd
  obtain ⟨-, hfBnd, hdisj⟩ := hnd
  have hfB : f ∉ B := by
    intro hx
    exact (List.nodup_cons.mp hfBnd).1 hx
  have hAne : ∀ g ∈ A, g ≠ f := by
    intro g hg he
    exact hdisj hg (he ▸ List.mem_cons_self f B)
  have hBne : ∀ g ∈ B, g ≠ f := by
    intro g hg he
    exact hfB (he ▸ hg)
  have hcongrA := chunks_congr A v v' (fun g hg => hsame g (hAne g hg))
  have hcongrB := chunks_congr B v v' (fun g hg => hsame g (hBne g hg))
  unfold hashableChunks
  rw [List.filter_append, List.filter_append, List.map_append, List.map_append,
    List.filter_cons, List.filter_cons]
  cases hvf : (v f != "") with
  | true =>
    cases hvf' : (v' f != "") with
    | true =>
      simp only [hvf, hvf', if_true, List.map_cons, hcongrA, hcongrB]
      intro h
      have := joinAmp_mid_inj _ _ _ _ h
      exact hne (strAppend_left_cancel this)
    | false =>
      simp only [hvf, hvf', if_true, Bool.false_eq_true, if_false, List.map_cons,
        hcongrA, hcongrB]
      intro h
      exact (joinAmp_mid_ne _ _ _ (chunk_length_pos f (v f))) h.symm
  | false =>
    have hvfe : v f = "" := by
      simpa using hvf
    cases hvf' : (v' f != "") with
    | true =>
      simp only [hvf, hvf', if_true, Bool.false_eq_true, if_false, List.map_cons,
        hcongrA, hcongrB]
      intro h
      exact (joinAmp_mid_ne _ _ _ (chunk_length_pos f (v' f))) h
    | false =>
      have hvfe' : v' f = "" := by
        simpa using hvf'
      exact absurd (hvfe'.trans hvfe.symm) hne

/-! ### Claim C10 -/

/-- Claim C10: for every record whose `signature` field is empty, `clean`
performs no check at all and never raises — in particular a record of an
authority-requiring type that carries no signature passes validation
regardless of who `signed_by` is or whether it is set. -/
theorem claim_c10 (env : CryptoEnv) (st : Store) (r : SRecord)
    (hsig : r.signature = "") : clean env st r = .ok () := by
  unfold clean
  rw [if_pos hsig]

/-- Witness for C10: a concrete unsigned record of the authority-requiring
type `Organization` with `signed_by` set. -/
theorem claim_c10_witness :
    cR10.signature = "" ∧ requiresAuthoritySignature cR10.rtype = some true ∧
      clean idealEnv cSt5 cR10 = .ok () :=
  ⟨by decide, by decide, claim_c10 idealEnv cSt5 cR10 (by decide)⟩

/-! ### Claim C8 -/

/-- Claim C8: a `save` attempted with no explicit own-device override and no
resolvable own device fails with the configuration error (the Python
`ValidationError("Cannot save another Device before registering this
Device.")`), before any write happens — the error return carries no store. -/
theorem claim_c8 (env : CryptoEnv) (st : Store) (r : SRecord)
    (hno : get_own_device st = none) :
    save env .noArg st r = .error .configurationError := by
  unfold save resolveOwn
  rw [hno]

/-- Witness for C8: saving on an empty store (no metadata row is flagged
`is_own_device`) fails. -/
theorem claim_c8_witness :
    get_own_device {} = none ∧
      save idealEnv .noArg {} cW2Record = .error .configurationError :=
  ⟨by decide, claim_c8 idealEnv {} cW2Record (by decide)⟩

/-! ### Claim C5 -/

/-- Claim C5: for a record of an authority-requiring type whose signature is
present and cryptographically valid, `clean` raises the trust-violation
error exactly when the signing device's metadata has
`is_trusted_authority = false`, and passes the trust check when it is true. -/
theorem claim_c5 (env : CryptoEnv) (st : Store) (r : SRecord)
    (hauth : requiresAuthoritySignature r.rtype = some true)
    (hsig : r.signature ≠ "")
    (hvalid : verifyModel env st r = true) :
    ((signedByMetadata st r).is_trusted_authority = false →
        clean env st r = .error .trustViolation) ∧
    ((signedByMetadata st r).is_trusted_authority = true →
        clean env st r = .ok ()) := by
  constructor <;> intro h <;> simp [clean, hsig, hvalid, hauth, h]

/-- Witness for C5: the same validly signed `Organization` record is rejected
for trust when its signer's metadata is untrusted and accepted when the
signer is a trusted authority. -/
theorem claim_c5_witness :
    clean validEnv cSt5 cR5 = .error .trustViolation ∧
      clean validEnv cSt5t cR5 = .ok () :=
  ⟨(claim_c5 validEnv cSt5 cR5 (by decide) (by decide) (by decide)).1 (by decide),
   (claim_c5 validEnv cSt5t cR5 (by decide) (by decide) (by decide)).2 (by decide)⟩

/-! ### Claim C3 -/

theorem mem_sortInsert (a b : String) (l : List String) :
    a ∈ sortInsert b l ↔ a = b ∨ a ∈ l := by
  induction l with
  | nil => simp [sortInsert]
  | cons c cs ih =>
    unfold sortInsert
    by_cases h : strLe b c = true
    · simp [h]
    · simp [h, ih]
      tauto

theorem mem_sortFields (a : String) (l : List String) : a ∈ sortFields l ↔ a ∈ l := by
  induction l with
  | nil => simp [sortFields]
  | cons b bs ih => simp [sortFields, mem_sortInsert, ih]

/-- Counterexample to claim C3: with `Device`'s explicit field list (which
contains `signed_version` but omits `id`), the canonical representation
begins with the `id` field and only then `signed_version` — not with
`signed_version` then `id` as the claim states. -/
theorem claim_c3_counterexample :
    computeFields (declaredFields cR4base) (explicitFieldsFor cR4base.rtype) =
        ["id", "signed_version", "name", "description", "public_key"] ∧
    hashableRepresentation cR4base =
        "id=aa&signed_version=1&name=n&description=d&public_key=PK" ∧
    hashableRepresentation cR4base ≠
        "signed_version=1&id=aa&name=n&description=d&public_key=PK" := by
  refine ⟨by decide, by decide, by decide⟩

/-- Claim C3 (amended): the always-hash fields are prepended only when
missing from the field list, and in an order that puts `id` outermost: an
explicit list omitting both begins `id`, `signed_version`; an explicit list
omitting only `id` (as `Device`'s does) begins `id`; an explicit list already
containing both is used unchanged; and the default list is exactly the
sorted declared-minus-exempt field list, with `id` and `signed_version` in
their sorted positions (no prepending). -/
theorem claim_c3_amended :
    (∀ decl fs, fs ≠ [] → "id" ∉ fs → "signed_version" ∉ fs →
        computeFields decl (some fs) = "id" :: "signed_version" :: fs) ∧
    (∀ decl fs, fs ≠ [] → "id" ∉ fs → "signed_version" ∈ fs →
        computeFields decl (some fs) = "id" :: fs) ∧
    (∀ decl fs, fs ≠ [] → "id" ∈ fs → "signed_version" ∈ fs →
        computeFields decl (some fs) = fs) ∧
    (∀ decl, "id" ∈ decl → "signed_version" ∈ decl →
        computeFields decl none =
          sortFields (decl.filter (fun f => !(unhashableFields.contains f)))) := by
  refine ⟨?_, ?_, ?_, ?_⟩
  · intro decl fs hne hid hsv
    cases fs with
    | nil => exact absurd rfl hne
    | cons b bs =>
      have hid2 : "id" ∉ ("signed_version" :: b :: bs) := by
        intro hmem
        rcases List.mem_cons.mp hmem with h | h
        · exact absurd h (by decide)
        · exact hid h
      have step : computeFields decl (some (b :: bs)) =
          alwaysHashFields.foldl (fun fs f => if f ∈ fs then fs else f :: fs) (b :: bs) := rfl
      rw [step]
      simp only [alwaysHashFields, List.foldl]
      rw [if_neg hsv, if_neg hid2]
  · intro decl fs hne hid hsv
    cases fs with
    | nil => exact absurd rfl hne
    | cons b bs =>
      have step : computeFields decl (some (b :: bs)) =
          alwaysHashFields.foldl (fun fs f => if f ∈ fs then fs else f :: fs) (b :: bs) := rfl
      rw [step]
      simp only [alwaysHashFields, List.foldl]
      rw [if_pos hsv, if_neg hid]
  · intro decl fs hne hid hsv
    cases fs with
    | nil => exact absurd rfl hne
    | cons b bs =>
      have step : computeFields decl (some (b :: bs)) =
          alwaysHashFields.foldl (fun fs f => if f ∈ fs then fs else f :: fs) (b :: bs) := rfl
      rw [step]
      simp only [alwaysHashFields, List.foldl]
      rw [if_pos hsv, if_pos hid]
  · intro decl hid hsv
    have hidL : "id" ∈ sortFields (decl.filter (fun f => !(unhashableFields.contains f))) := by
      rw [mem_sortFields]
      exact List.mem_filter.mpr ⟨hid, by decide⟩
    have hsvL : "signed_version" ∈
        sortFields (decl.filter (fun f => !(unhashableFields.contains f))) := by
      rw [mem_sortFields]
      exact List.mem_filter.mpr ⟨hsv, by decide⟩
    have step : computeFields decl none =
        alwaysHashFields.foldl (fun fs f => if f ∈ fs then fs else f :: fs)
          (sortFields (decl.filter (fun f => !(unhashableFields.contains f)))) := rfl
    rw [step]
    simp only [alwaysHashFields, List.foldl]
    rw [if_pos hsvL, if_pos hidL]

/-- Witness for the amended C3, exercising all four cases on concrete lists
(the second case is `Device`'s own list). -/
theorem claim_c3_amended_witness :
    computeFields [] (some ["name"]) = ["id", "signed_version", "name"] ∧
    computeFields [] (some ["signed_version", "name", "description", "public_key"]) =
        ["id", "signed_version", "name", "description", "public_key"] ∧
    computeFields [] (some ["id", "signed_version"]) = ["id", "signed_version"] ∧
    computeFields ["id", "counter", "signature", "signed_version", "signed_by"] none =
        sortFields (["id", "counter", "signature", "signed_version", "signed_by"].filter
          (fun f => !(unhashableFields.contains f))) :=
  ⟨claim_c3_amended.1 [] ["name"] (by decide) (by decide) (by decide),
   claim_c3_amended.2.1 [] ["signed_version", "name", "description", "public_key"]
     (by decide) (by decide) (by decide),
   claim_c3_amended.2.2.1 [] ["id", "signed_version"] (by decide) (by decide) (by decide),
   claim_c3_amended.2.2.2 ["id", "counter", "signature", "signed_version", "signed_by"]
     (by decide) (by decide)⟩

/-! ### Claims C2 and C1: `save` structure lemmas -/

theorem saveCounterStage_id (st : Store) (od r : SRecord) :
    (saveCounterStage st od r).1.id = r.id := by
  unfold saveCounterStage
  split <;> rfl

theorem saveCounterStage_counter_of_ne (st : Store) (od r : SRecord)
    (h : r.counter ≠ 0) : (saveCounterStage st od r).1.counter = r.counter := by
  unfold saveCounterStage
  rw [if_neg h]

theorem saveIdStage_counter (env : CryptoEnv) (ns : String) (r : SRecord) (st : Store) :
    (saveIdStage env ns r st).1.counter = r.counter := by
  unfold saveIdStage
  split <;> rfl

theorem saveIdStage_id_of_ne (env : CryptoEnv) (ns : String) (r : SRecord) (st : Store)
    (h : r.id ≠ "") : (saveIdStage env ns r st).1.id = r.id := by
  unfold saveIdStage
  rw [if_neg h]

theorem saveIdStage_id_of_empty (env : CryptoEnv) (ns : String) (r : SRecord) (st : Store)
    (h : r.id = "") : (saveIdStage env ns r st).1.id = env.uuid5 ns (Nat.repr r.counter) := by
  unfold saveIdStage
  rw [if_pos h]

theorem saveSignStage_id (env : CryptoEnv) (dev r : SRecord) :
    (saveSignStage env dev r).id = r.id := by
  unfold saveSignStage
  split <;> rfl

theorem saveSignStage_counter (env : CryptoEnv) (dev r : SRecord) :
    (saveSignStage env dev r).counter = r.counter := by
  unfold saveSignStage
  split <;> rfl

/-- A successful `save` decomposes into its three stages. -/
theorem save_ok_elim (env : CryptoEnv) (oa : OwnArg) (st : Store) (r r' : SRecord)
    (st' : Store) (hsave : save env oa st r = .ok (r', st')) :
    ∃ od, resolveOwn oa st r = some od ∧
      r' = saveSignStage env
          (ownForSign oa od (saveIdStage env (saveNamespace env od)
            (saveCounterStage st od r).1 (saveCounterStage st od r).2).1)
          (saveIdStage env (saveNamespace env od)
            (saveCounterStage st od r).1 (saveCounterStage st od r).2).1 := by
  cases hres : resolveOwn oa st r with
  | none =>
    unfold save at hsave
    rw [hres] at hsave
    simp at hsave
  | some od =>
    refine ⟨od, rfl, ?_⟩
    unfold save at hsave
    rw [hres] at hsave
    simp only [Except.ok.injEq, Prod.mk.injEq] at hsave
    exact hsave.1.symm

/-- Claim C2 (amended): `save` never changes a nonempty `id`, and never
changes a nonzero `counter`; but a record whose persisted counter is `0`
(the bootstrap own-device record) has its counter re-allocated by the next
`save`, because `0` is falsy in `if not self.counter`. -/
theorem claim_c2_amended (env : CryptoEnv) (oa : OwnArg) (st : Store) (r r' : SRecord)
    (st' : Store) (hsave : save env oa st r = .ok (r', st')) :
    (r.id ≠ "" → r'.id = r.id) ∧ (r.counter ≠ 0 → r'.counter = r.counter) := by
  obtain ⟨od, -, hr⟩ := save_ok_elim env oa st r r' st' hsave
  constructor
  · intro hid
    rw [hr, saveSignStage_id,
      saveIdStage_id_of_ne _ _ _ _ (by rw [saveCounterStage_id]; exact hid),
      saveCounterStage_id]
  · intro hcnt
    rw [hr, saveSignStage_counter, saveIdStage_counter,
      saveCounterStage_counter_of_ne _ _ _ hcnt]

/-- Counterexample to claim C2 as stated: the bootstrap device record is
first saved successfully with counter `0`; the very next save of that same
record (the second phase of the self-signed `Device.save`) changes its
counter from `0` to `1` while keeping its id. -/
theorem claim_c2_counterexample :
    (save idealEnv .ownSelf {} cFreshDevice).isOk = true ∧
    c2Phase1.1.counter = 0 ∧
    (save idealEnv .ownSelf c2Phase1.2 c2Phase1.1).isOk = true ∧
    c2Phase2.1.id = c2Phase1.1.id ∧
    c2Phase2.1.counter = 1 ∧
    c2Phase2.1.counter ≠ c2Phase1.1.counter := by
  refine ⟨by decide, by decide, by decide, by decide, by decide, by decide⟩

/-- Witness for the amended C2: a fully persisted record (nonempty id,
nonzero counter) keeps both across a further save. -/
theorem claim_c2_witness :
    cW2Record.id ≠ "" ∧ cW2Record.counter ≠ 0 ∧
      cW2Result.1.id = cW2Record.id ∧ cW2Result.1.counter = cW2Record.counter :=
  ⟨by decide, by decide,
   (claim_c2_amended idealEnv (.ownDev cDeviceD) {} cW2Record cW2Result.1 cW2Result.2
     (by decide)).1 (by decide),
   (claim_c2_amended idealEnv (.ownDev cDeviceD) {} cW2Record cW2Result.1 cW2Result.2
     (by decide)).2 (by decide)⟩

/-- Claim C1: (1) a record whose id is unset at save time gets
`id = uuid5(namespace, str(counter))`, where the namespace is the acting own
device's id when persisted and the fresh random UUID otherwise; (2) given a
collision-free (injective) `uuid5`, derived ids collide only for the same
device id and counter; (3) replaying a save for the same device id and the
same resulting counter yields the same id. -/
theorem claim_c1 (env : CryptoEnv) :
    (∀ oa st r r' st' od, save env oa st r = .ok (r', st') →
        resolveOwn oa st r = some od → r.id = "" →
        r'.id = env.uuid5 (saveNamespace env od) (Nat.repr r'.counter) ∧
        (od.id ≠ "" → r'.id = deriveId env od.id r'.counter)) ∧
    ((∀ a b a' b', env.uuid5 a b = env.uuid5 a' b' → a = a' ∧ b = b') →
        ∀ d1 c1 d2 c2, deriveId env d1 c1 = deriveId env d2 c2 → d1 = d2 ∧ c1 = c2) ∧
    (∀ oa1 st1 r1 r1' st1' od1 oa2 st2 r2 r2' st2' od2,
        save env oa1 st1 r1 = .ok (r1', st1') → resolveOwn oa1 st1 r1 = some od1 →
        r1.id = "" →
        save env oa2 st2 r2 = .ok (r2', st2') → resolveOwn oa2 st2 r2 = some od2 →
        r2.id = "" →
        od1.id = od2.id → od1.id ≠ "" → r1'.counter = r2'.counter →
        r1'.id = r2'.id) := by
  have main : ∀ oa st r r' st' od, save env oa st r = .ok (r', st') →
      resolveOwn oa st r = some od → r.id = "" →
      r'.id = env.uuid5 (saveNamespace env od) (Nat.repr r'.counter) ∧
      (od.id ≠ "" → r'.id = deriveId env od.id r'.counter) := by
    intro oa st r r' st' od hsave hres hid
    obtain ⟨od', hres', hr⟩ := save_ok_elim env oa st r r' st' hsave
    rw [hres] at hres'
    cases hres'
    have hcnt : r'.counter = (saveCounterStage st od r).1.counter := by
      rw [hr, saveSignStage_counter, saveIdStage_counter]
    have hid' : r'.id =
        env.uuid5 (saveNamespace env od) (Nat.repr (saveCounterStage st od r).1.counter) := by
      rw [hr, saveSignStage_id,
        saveIdStage_id_of_empty _ _ _ _ (by rw [saveCounterStage_id]; exact hid)]
    refine ⟨by rw [hid', hcnt], fun hodid => ?_⟩
    rw [hid', hcnt]
    unfold deriveId saveNamespace
    rw [if_neg hodid]
  refine ⟨main, ?_, ?_⟩
  · intro hinj d1 c1 d2 c2 h
    obtain ⟨hd, hc⟩ := hinj _ _ _ _ h
    exact ⟨hd, natRepr_injective hc⟩
  · intro oa1 st1 r1 r1' st1' od1 oa2 st2 r2 r2' st2' od2
      hsave1 hres1 hid1 hsave2 hres2 hid2 hdd hne hcc
    have h1 := (main oa1 st1 r1 r1' st1' od1 hsave1 hres1 hid1).2 hne
    have h2 := (main oa2 st2 r2 r2' st2' od2 hsave2 hres2 hid2).2 (hdd ▸ hne)
    rw [h1, h2, hdd, hcc]

/-- Witness for C1: with the injective pairing as `uuid5`, a concrete save
derives the documented id, collision-freedom holds at concrete inputs, and
two saves for the same device and counter agree. -/
theorem claim_c1_witness :
    c1ResultA.1.id = idealEnv.uuid5 (saveNamespace idealEnv cDeviceD) (Nat.repr c1ResultA.1.counter) ∧
    c1ResultA.1.id = deriveId idealEnv "dd" c1ResultA.1.counter ∧
    ("d1" = "d1" ∧ (5 : Nat) = 5) ∧
    c1ResultA.1.id = c1ResultB.1.id := by
  have h1 := (claim_c1 idealEnv).1 (.ownDev cDeviceD) {} c1RecordA c1ResultA.1 c1ResultA.2
    cDeviceD (by decide) (by decide) (by decide)
  refine ⟨h1.1, ?_, ?_, ?_⟩
  · have := h1.2 (by decide)
    simpa using this
  · exact (claim_c1 idealEnv).2.1 (fun a b a' b' h => pairStr_inj a b a' b' h)
      "d1" 5 "d1" 5 rfl
  · exact (claim_c1 idealEnv).2.2 (.ownDev cDeviceD) {} c1RecordA c1ResultA.1 c1ResultA.2
      cDeviceD (.ownDev cDeviceD) {} c1RecordB c1ResultB.1 c1ResultB.2 cDeviceD
      (by decide) (by decide) (by decide) (by decide) (by decide) (by decide)
      rfl (by decide) (by decide)

/-! ### Claim C4 -/

/-- Claim C4: for a signed record, changing the value of any field that
participates in its canonical representation (is in the computed field list)
makes `verify` return false, given ideal (collision-free) signatures.  `r'`
is the tampered copy: same type and field list, same `signed_by` and
`signature`, all field values equal except at `f`. -/
theorem claim_c4 (env : CryptoEnv) (st : Store) (r r' : SRecord) (f : String)
    (did : String) (dev : SRecord)
    (hnd : (computeFields (declaredFields r) (explicitFieldsFor r.rtype)).Nodup)
    (hmem : f ∈ computeFields (declaredFields r) (explicitFieldsFor r.rtype))
    (hfe : computeFields (declaredFields r') (explicitFieldsFor r'.rtype) =
        computeFields (declaredFields r) (explicitFieldsFor r.rtype))
    (hne : fieldValue r' f ≠ fieldValue r f)
    (hsame : ∀ g, g ≠ f → fieldValue r' g = fieldValue r g)
    (hsb : r'.signed_by = r.signed_by)
    (hsig : r'.signature = r.signature)
    (hdid : r.signed_by = some did)
    (hdev : findDevice st did = some dev)
    (hsigned : r.signature = env.b64encode (env.sign (hashableRepresentation r)))
    (hIdeal : ∀ m m', env.verify m' (env.b64decode (env.b64encode (env.sign m)))
        (env.newPubKey (devicePublicKey dev)) = true → m' = m) :
    verifyModel env st r' = false := by
  have hrepne : hashableRepresentation r' ≠ hashableRepresentation r := by
    unfold hashableRepresentation
    rw [hfe]
    exact hashableChunks_tamper _ hnd f hmem (fieldValue r) (fieldValue r') hne hsame
  simp only [verifyModel, hsb, hdid, hdev, hsig, hsigned]
  cases hb : env.verify (hashableRepresentation r')
      (env.b64decode (env.b64encode (env.sign (hashableRepresentation r))))
      (env.newPubKey (devicePublicKey dev)) with
  | false => rfl
  | true => exact absurd (hIdeal _ _ hb) hrepne

/-- Witness for C4: a concrete signed `Device` record whose `name` is
tampered after signing fails verification (while the untampered record
verifies). -/
theorem claim_c4_witness :
    fieldValue cR4tampered "name" ≠ fieldValue cR4 "name" ∧
      verifyModel idealEnv cSt4 cR4 = true ∧
      verifyModel idealEnv cSt4 cR4tampered = false := by
  refine ⟨by decide, by decide, ?_⟩
  refine claim_c4 idealEnv cSt4 cR4 cR4tampered "name" "aa" cR4
    (by decide) (by decide) (by decide) (by decide) ?_ (by decide) (by decide)
    (by decide) (by decide) (by decide) ?_
  · intro g hg
    have hgn : (g == "name") = false := beq_eq_false_iff_ne.mpr hg
    simp only [fieldValue, cR4tampered, cR4, cR4base]
    split_ifs <;> try rfl
    simp [List.lookup, hgn]
  · intro m m' h
    simpa [idealEnv] using h

/-! ### Claim C6 (code bug) -/

/-- Claim C6 at its failing input: a batch holding a single `FacilityUser`
record whose signature is cryptographically valid makes `clean` read the
undefined `requires_authority_signature` attribute; the resulting
`AttributeError` is not a `ValidationError`, so `save_serialized_models`
does not catch it and the whole batch aborts instead of committing the
record or collecting it as rejected. -/
theorem claim_c6_bug_eval :
    verifyModel validEnv cSt6 cFU = true ∧
      requiresAuthoritySignature cFU.rtype = none ∧
      clean validEnv cSt6 cFU = .error .attributeError ∧
      save_serialized_models validEnv cSt6 [cFU] = .error .attributeError := by
  refine ⟨by decide, by decide, by decide, by decide⟩

/-! ### Claim C9 -/

/-- Claim C9: the handshake reaches `Verified` exactly when both the client
and the server signature checks succeed, each verifying the supplied
signature over the canonical string
`clientNonce:clientDevicePK:serverNonce:serverDevicePK` against the
respective device's public key; otherwise the outcome is `Rejected` (the
outcome is always one of the two — no partial trust). -/
theorem claim_c9 (env : CryptoEnv) (st : Store) (s : SessionR) (csig ssig : String)
    (sd : String) (cdev sdev : SRecord)
    (hsd : s.server_device = some sd)
    (hcdev : findDevice st s.client_device = some cdev)
    (hsdev : findDevice st sd = some sdev) :
    (handshakeOutcome env st s csig ssig = .Verified ↔
      (env.verify (s.client_nonce ++ ":" ++ s.client_device ++ ":" ++ s.server_nonce ++ ":" ++ sd)
          (env.b64decode csig) (env.newPubKey (devicePublicKey cdev)) = true ∧
       env.verify (s.client_nonce ++ ":" ++ s.client_device ++ ":" ++ s.server_nonce ++ ":" ++ sd)
          (env.b64decode ssig) (env.newPubKey (devicePublicKey sdev)) = true)) ∧
    (handshakeOutcome env st s csig ssig = .Verified ∨
      handshakeOutcome env st s csig ssig = .Rejected) := by
  have hc : verify_client_signature env st s csig =
      env.verify (s.client_nonce ++ ":" ++ s.client_device ++ ":" ++ s.server_nonce ++ ":" ++ sd)
        (env.b64decode csig) (env.newPubKey (devicePublicKey cdev)) := by
    simp [verify_client_signature, sessionVerifySignature, sessionHashableRepresentation,
      hsd, hcdev]
  have hs : verify_server_signature env st s ssig =
      env.verify (s.client_nonce ++ ":" ++ s.client_device ++ ":" ++ s.server_nonce ++ ":" ++ sd)
        (env.b64decode ssig) (env.newPubKey (devicePublicKey sdev)) := by
    simp [verify_server_signature, sessionVerifySignature, sessionHashableRepresentation,
      hsd, hsdev]
  unfold handshakeOutcome
  rw [hc, hs]
  constructor
  · constructor
    · intro h
      by_cases hA : env.verify (s.client_nonce ++ ":" ++ s.client_device ++ ":" ++ s.server_nonce ++ ":" ++ sd)
          (env.b64decode csig) (env.newPubKey (devicePublicKey cdev)) = true
      · by_cases hB : env.verify (s.client_nonce ++ ":" ++ s.client_device ++ ":" ++ s.server_nonce ++ ":" ++ sd)
            (env.b64decode ssig) (env.newPubKey (devicePublicKey sdev)) = true
        · exact ⟨hA, hB⟩
        · simp [hA, hB] at h
      · simp [hA] at h
    · intro ⟨hA, hB⟩
      simp [hA, hB]
  · by_cases hA : env.verify (s.client_nonce ++ ":" ++ s.client_device ++ ":" ++ s.server_nonce ++ ":" ++ sd)
        (env.b64decode csig) (env.newPubKey (devicePublicKey cdev)) = true
    · by_cases hB : env.verify (s.client_nonce ++ ":" ++ s.client_device ++ ":" ++ s.server_nonce ++ ":" ++ sd)
          (env.b64decode ssig) (env.newPubKey (devicePublicKey sdev)) = true
      · left
        simp [hA, hB]
      · right
        simp [hA, hB]
    · right
      simp [hA]

/-- Witness for C9: a session in which both devices sign the canonical
string `cn:aa:sn:dd` is `Verified`; a wrong server signature makes it
`Rejected`. -/
theorem claim_c9_witness :
    handshakeOutcome idealEnv cSt9 cSession "cn:aa:sn:dd" "cn:aa:sn:dd" = .Verified ∧
      handshakeOutcome idealEnv cSt9 cSession "cn:aa:sn:dd" "bad" = .Rejected := by
  constructor
  · exact (claim_c9 idealEnv cSt9 cSession "cn:aa:sn:dd" "cn:aa:sn:dd" "dd" cDeviceA cDeviceD
      (by decide) (by decide) (by decide)).1.mpr ⟨by decide, by decide⟩
  · have h := claim_c9 idealEnv cSt9 cSession "cn:aa:sn:dd" "bad" "dd" cDeviceA cDeviceD
      (by decide) (by decide) (by decide)
    rcases h.2 with hv | hr
    · have := h.1.mp hv
      exact absurd this.2 (by decide)
    · exact hr

/-! ### Claim C7 -/

theorem gsmDeviceLoop_inl (tbl : List SRecord) (limit : Nat) :
    ∀ dcs acc res, gsmDeviceLoop tbl limit dcs acc = .inl res →
      res = (acc ++ dcs.flatMap (fun p => filterOutstanding tbl p.1 p.2)).take limit ∧
      limit < (acc ++ dcs.flatMap (fun p => filterOutstanding tbl p.1 p.2)).length := by
  intro dcs
  induction dcs with
  | nil => intro acc res h; simp [gsmDeviceLoop] at h
  | cons p rest ih =>
    intro acc res h
    obtain ⟨did, ctr⟩ := p
    simp only [gsmDeviceLoop] at h
    rw [List.flatMap_cons, ← List.append_assoc]
    split at h
    · rename_i hlt
      have hres : res = (acc ++ filterOutstanding tbl did ctr).take limit := by
        cases h
        rfl
      constructor
      · rw [hres, List.take_append_of_le_length (le_of_lt hlt)]
      · calc limit < (acc ++ filterOutstanding tbl did ctr).length := hlt
          _ ≤ _ := by simp [List.length_append]
    · exact ih (acc ++ filterOutstanding tbl did ctr) res h

theorem gsmDeviceLoop_inr (tbl : List SRecord) (limit : Nat) :
    ∀ dcs acc acc', gsmDeviceLoop tbl limit dcs acc = .inr acc' →
      acc' = acc ++ dcs.flatMap (fun p => filterOutstanding tbl p.1 p.2) ∧
      (acc.length ≤ limit → acc'.length ≤ limit) := by
  intro dcs
  induction dcs with
  | nil =>
    intro acc acc' h
    simp only [gsmDeviceLoop, Sum.inr.injEq] at h
    simp [← h]
  | cons p rest ih =>
    intro acc acc' h
    obtain ⟨did, ctr⟩ := p
    simp only [gsmDeviceLoop] at h
    rw [List.flatMap_cons, ← List.append_assoc]
    split at h
    · exact absurd h (by simp)
    · rename_i hle
      obtain ⟨h1, h2⟩ := ih (acc ++ filterOutstanding tbl did ctr) acc' h
      exact ⟨h1, fun _ => h2 (by omega)⟩

theorem gsmModelLoop_take (st : Store) (limit : Nat) (dcs : List (String × Nat)) :
    ∀ types acc, acc.length ≤ limit →
      gsmModelLoop st limit dcs types acc =
        (acc ++ types.flatMap (fun t =>
          dcs.flatMap (fun p => filterOutstanding (tableOf st t) p.1 p.2))).take limit := by
  intro types
  induction types with
  | nil =>
    intro acc hacc
    simp only [gsmModelLoop, List.flatMap_nil, List.append_nil]
    exact (List.take_of_length_le hacc).symm
  | cons t rest ih =>
    intro acc hacc
    simp only [gsmModelLoop]
    rw [List.flatMap_cons, ← List.append_assoc]
    cases hdl : gsmDeviceLoop (tableOf st t) limit dcs acc with
    | inl res =>
      dsimp only
      obtain ⟨hres, hlen⟩ := gsmDeviceLoop_inl _ _ dcs acc res hdl
      rw [hres]
      exact (List.take_append_of_le_length (le_of_lt hlen)).symm
    | inr acc' =>
      dsimp only
      obtain ⟨hacc', hbound⟩ := gsmDeviceLoop_inr _ _ dcs acc acc' hdl
      rw [ih acc' (hbound hacc), hacc']

/-- Claim C7: the export selects, for every syncable type and every device in
the (defaulted) watermark map, exactly the records signed by that device with
counter at or above the watermark, in type-then-device order, and the result
is that selection truncated to `limit` records; an absent map means a zero
watermark for every known device. -/
theorem claim_c7 (st : Store) (dc : Option (List (String × Nat))) (limit : Nat) :
    get_serialized_models st dc limit =
      (specSelection st (effectiveCounters st dc)).take limit ∧
    get_serialized_models st none limit =
      (specSelection st (zeroWatermarks st)).take limit := by
  have main : ∀ d, get_serialized_models st d limit =
      (specSelection st (effectiveCounters st d)).take limit := by
    intro d
    unfold get_serialized_models specSelection
    rw [gsmModelLoop_take st limit (effectiveCounters st d) syncingModels [] (by simp)]
    rw [List.nil_append]
  exact ⟨main dc, main none⟩
